import Mathlib

/-!
Shallow embedding of `src/main.py` of `gp_markers_to_ableton`: a tool that
copies Guitar Pro rehearsal marks into an Ableton Live project as locators.
XML elements are modelled as ordered trees with a tag, an attribute list,
optional text and an ordered child list, mirroring
`xml.etree.ElementTree.Element`.  The filesystem is modelled as a partial map
from paths to file contents.
-/

namespace GP

/-- An XML element: tag, attributes, text content, ordered children
(`xml.etree.ElementTree.Element`). -/
inductive Elem : Type where
  | mk : String → List (String × String) → Option String → List Elem → Elem

def Elem.tag : Elem → String
  | .mk t _ _ _ => t

def Elem.attrs : Elem → List (String × String)
  | .mk _ a _ _ => a

def Elem.text : Elem → Option String
  | .mk _ _ x _ => x

def Elem.children : Elem → List Elem
  | .mk _ _ _ c => c

/-- First child with the given tag: `element.find(tag)`. -/
def findTag : List Elem → String → Option Elem
  | [], _ => none
  | e :: r, t => if e.tag = t then some e else findTag r t

/-- All children with the given tag, in order: `element.findall(tag)`. -/
def findallTag : List Elem → String → List Elem
  | [], _ => []
  | e :: r, t => if e.tag = t then e :: findallTag r t else findallTag r t

/-- Index of the first child with the given tag: the
`[position for position in range(len(live_set)) if live_set[position].tag == ...][0]`
lookup of `main.py`, returning `none` where Python would raise `IndexError`. -/
def findIdxTag : List Elem → String → Option Nat
  | [], _ => none
  | e :: r, t => if e.tag = t then some 0 else (findIdxTag r t).map (· + 1)

/-- Remove the first child with the given tag:
`live_set.remove(live_set.find(tag))` (Python removes by identity the element
`find` returned, i.e. the first child with that tag). -/
def removeFirstTag : List Elem → String → List Elem
  | [], _ => []
  | e :: r, t => if e.tag = t then r else e :: removeFirstTag r t

/-- Replace the first child with the given tag (mutating through the reference
returned by `find`). -/
def setFirstTag : List Elem → String → Elem → List Elem
  | [], _, _ => []
  | e :: r, t, x => if e.tag = t then x :: r else e :: setFirstTag r t x

/-- Apply a function at one index of the child list (mutating through the
reference returned by `find`). -/
def modifyAt : List Elem → Nat → (Elem → Elem) → List Elem
  | [], _, _ => []
  | e :: r, 0, f => f e :: r
  | e :: r, n + 1, f => e :: modifyAt r n f

/-- Python `list.insert`: out-of-range positions clamp to the end. -/
def pyInsert : Nat → Elem → List Elem → List Elem
  | _, x, [] => [x]
  | 0, x, l => x :: l
  | n + 1, x, e :: r => e :: pyInsert n x r

/-- Attribute lookup: `element.get(key)`. -/
def lookupStr : List (String × String) → String → Option String
  | [], _ => none
  | (k, v) :: r, q => if k = q then some v else lookupStr r q

def getAttr (e : Elem) (k : String) : Option String :=
  lookupStr e.attrs k

/-- Truthiness of `element.find(tag)` in Python: `None` is falsy, and an
`Element` is falsy exactly when it has no children. -/
def truthyFind (e : Elem) (t : String) : Bool :=
  match findTag e.children t with
  | none => false
  | some x => !x.children.isEmpty

/-- Abstract kinds of the Python exceptions the script can raise; the spec's
error taxonomy maps onto these (`EmptyInputError` is the bare `Exception` of
line 88, `StructureError` covers `attributeError`/`indexError`,
`FormatError` the bare `Exception` of line 43, `NotFoundError` is
`FileNotFoundError`, and a bad `int(...)` conversion is `valueError`). -/
inductive PyExc : Type where
  | emptyInput
  | attributeError
  | indexError
  | valueError
  | fileNotFound
  | formatError
  | badGzip
  | parseError
deriving DecidableEq

/-- One extracted marker: the dict `{"bar": measure.get("number"), "marker":
rehearsal.text}` of line 71.  Both fields are optional strings, exactly as
`Element.get` and `Element.text` can return `None`. -/
structure Marker : Type where
  bar : Option String
  marker : Option String
deriving DecidableEq

/-- Python `str.format` / `str()` of an optional string: `None` prints as the
literal string `"None"`. -/
def pyFormat : Option String → String
  | none => "None"
  | some s => s

def digitsAux (acc : Nat) : List Char → Option Nat
  | [] => some acc
  | c :: cs => if c.isDigit then digitsAux (acc * 10 + (c.toNat - 48)) cs else none

def digitsVal : List Char → Option Nat
  | [] => none
  | cs => digitsAux 0 cs

/-- Python `int(s)` on a decimal string literal: optional surrounding
whitespace, an optional sign, then a non-empty run of digits; anything else
raises `ValueError`. -/
def pyIntStr (s : String) : Option Int :=
  match (((s.data.dropWhile Char.isWhitespace).reverse.dropWhile Char.isWhitespace).reverse : List Char) with
  | '-' :: rest => (digitsVal rest).map (fun n => -(n : Int))
  | '+' :: rest => (digitsVal rest).map (fun n => (n : Int))
  | rest => (digitsVal rest).map (fun n => (n : Int))

/-- Python `int(marker["bar"])`: `int(None)` raises (`TypeError`), a
non-numeric string raises (`ValueError`); both are modelled as `none`. -/
def pyInt : Option String → Option Int
  | none => none
  | some s => pyIntStr s

/-! ## Marker Extractor: `extract_marker_from_gp_xml` (main.py lines 51-74)

The tree-level part of the function (after the file-existence check and the
XML parse).  Faithful points: a measure enters the loop only when
`measure.find("direction")` is *truthy*, i.e. the first `direction` child
exists and itself has at least one child; within a measure, one record is
appended per `direction` whose `direction-type` child has a non-empty
`findall("rehearsal")`, and the record's text comes from
`find("rehearsal")`, the *first* such node; a `direction` without a
`direction-type` child makes `None.findall(...)` raise `AttributeError`. -/

/-- The inner comprehension of lines 66-69, for the `direction` children of
one measure, carrying the enclosing measure's `number` attribute. -/
def collectDirs (bar : Option String) : List Elem → Except PyExc (List Marker)
  | [] => .ok []
  | d :: ds =>
    match findTag d.children "direction-type" with
    | none => .error .attributeError
    | some dt =>
      match collectDirs bar ds with
      | .error e => .error e
      | .ok rest =>
        match findallTag dt.children "rehearsal" with
        | [] => .ok rest
        | r :: _ => .ok ({ bar := bar, marker := r.text } :: rest)

/-- The outer loop of line 65, over the measures whose first `direction`
child is truthy. -/
def measuresLoop : List Elem → Except PyExc (List Marker)
  | [] => .ok []
  | m :: ms =>
    match collectDirs (getAttr m "number") (findallTag m.children "direction") with
    | .error e => .error e
    | .ok recs =>
      match measuresLoop ms with
      | .error e => .error e
      | .ok rest => .ok (recs ++ rest)

/-- The filter of line 65: measures for which `measure.find("direction")` is
truthy. -/
def qualifyingMeasures (part : Elem) : List Elem :=
  (findallTag part.children "measure").filter (fun m => truthyFind m "direction")

/-- Lines 63-72 of `main.py`, applied to the parsed document root (the
file-existence check and XML parsing of the path argument are I/O glue
outside this tree-level model). -/
def extract_marker_from_gp_xml (root : Elem) : Except PyExc (List Marker) :=
  match findTag root.children "part" with
  | none => .error .attributeError
  | some part => measuresLoop (qualifyingMeasures part)

/-! ## Locator Splicer: `add_markers_to_ableton_project` (main.py lines 77-109)

Stateful mutation of the tree is modelled by threading the document: the
result is either `ok` with the final document, or `err` with the exception
kind together with the document as it stands when the exception propagates
(ElementTree mutations performed before the raise persist). -/

inductive SpliceOut : Type where
  | ok : Elem → SpliceOut
  | err : PyExc → Elem → SpliceOut

/-- One fully built `Locator` element (lines 104-109) for sequential id `i`,
bar value `b` and formatted name `name`. -/
def locRow (i : Nat) (b : Int) (name : String) : Elem :=
  Elem.mk "Locator" [("Id", toString i)] none
    [Elem.mk "LomId" [("Value", "0")] none [],
     Elem.mk "Time" [("Value", toString ((b - 1) * 4))] none [],
     Elem.mk "Name" [("Value", name)] none [],
     Elem.mk "Annotation" [("Value", "")] none [],
     Elem.mk "IsSongStart" [("Value", "false")] none []]

/-- The loop of lines 101-109.  On a bar that `int(...)` rejects, the
`Locator` element with its `Id` and the `LomId` child have already been
appended when the exception fires (lines 104-105 precede line 106), so the
partial element stays in the tree; the Boolean records whether the loop
completed. -/
def addLocators (acc : List Elem) (i : Nat) : List Marker → List Elem × Bool
  | [] => (acc, true)
  | m :: rest =>
    match pyInt m.bar with
    | none =>
      (acc ++ [Elem.mk "Locator" [("Id", toString i)] none
        [Elem.mk "LomId" [("Value", "0")] none []]], false)
    | some b => addLocators (acc ++ [locRow i b (pyFormat m.marker)]) (i + 1) rest

/-- Lines 91-93: remove the existing `Locators` child, but only when
`live_set.find("Locators")` is truthy (a childless stale `Locators` element is
falsy in Python and is *not* removed). -/
def removalStep (ls : Elem) : List Elem :=
  if truthyFind ls "Locators" then removeFirstTag ls.children "Locators" else ls.children

def withChildren (e : Elem) (cs : List Elem) : Elem :=
  Elem.mk e.tag e.attrs e.text cs

/-- Write back the mutated `LiveSet` element (in Python the mutation happens
through the reference `find` returned; here the first `LiveSet` child of the
root is replaced). -/
def replaceLiveSet (doc : Elem) (ls2 : Elem) : Elem :=
  withChildren doc (setFirstTag doc.children "LiveSet" ls2)

/-- Lines 99-109: `live_set.find("Locators")` (the *first* child tagged
`Locators`, which need not be the one just inserted) receives the nested
`Locators` collection, which is then filled from the marker list. -/
def spliceFill (doc ls : Elem) (c2 : List Elem) (ms : List Marker) : SpliceOut :=
  match findIdxTag c2 "Locators" with
  | none => SpliceOut.err PyExc.attributeError (replaceLiveSet doc (withChildren ls c2))
  | some j =>
    match addLocators [] 1 ms with
    | (rows, done) =>
      match modifyAt c2 j (fun e => withChildren e (e.children ++ [Elem.mk "Locators" [] none rows])) with
      | c3 =>
        match replaceLiveSet doc (withChildren ls c3) with
        | d => if done then SpliceOut.ok d else SpliceOut.err PyExc.valueError d

/-- Lines 94-98: find the first `ViewStateSessionMixerHeight` position (the
`[...][0]` raises `IndexError` when the comprehension is empty) and insert a
fresh, childless `Locators` element right after it. -/
def spliceAtAnchor (doc ls : Elem) (c : List Elem) (ms : List Marker) : SpliceOut :=
  match findIdxTag c "ViewStateSessionMixerHeight" with
  | none => SpliceOut.err PyExc.indexError (replaceLiveSet doc (withChildren ls c))
  | some i => spliceFill doc ls (pyInsert (i + 1) (Elem.mk "Locators" [] none []) c) ms

/-- Lines 77-109 of `main.py`.  When `tree.find("LiveSet")` returns `None`,
line 91's `live_set.find(...)` raises `AttributeError`. -/
def add_markers_to_ableton_project (doc : Elem) (ms : List Marker) : SpliceOut :=
  if ms.isEmpty then SpliceOut.err PyExc.emptyInput doc
  else
    match findTag doc.children "LiveSet" with
    | none => SpliceOut.err PyExc.attributeError doc
    | some ls => spliceAtAnchor doc ls (removalStep ls) ms

/-! ## Project Store Adapter: `extract_xml_from_ableton_project` (lines 33-48)
and `replace_ableton_project` (lines 112-134)

File contents are modelled by an inductive: a gzip container wrapping a
payload, a serialized XML document, or raw bytes; the filesystem is a partial
map from path strings to contents. -/

inductive Content : Type where
  | gz : Content → Content
  | xml : Elem → Content
  | blob : List Nat → Content

/-- The first two bytes of a file on disk: a gzip container starts with the
magic `1f 8b` = `[31, 139]`; a serialized XML document starts with the
declaration `<?xml ...` = `[60, 63]`; raw bytes are themselves. -/
def firstTwoBytes : Content → List Nat
  | .gz _ => [31, 139]
  | .xml _ => [60, 63]
  | .blob bs => bs.take 2

def FS : Type := String → Option Content

/-- Line 30: append `".als"` when the path does not already end with it. -/
def endsWithAls (s : String) : Bool :=
  match s.data.reverse with
  | 's' :: 'l' :: 'a' :: '.' :: _ => true
  | _ => false

def add_als_extension_if_it_is_not_set (als_file : String) : String :=
  if endsWithAls als_file then als_file else als_file ++ ".als"

/-- Line 120: `als_project.replace(".als", "")` — Python `str.replace`
removes *every* non-overlapping occurrence, scanning left to right. -/
def replaceAls : List Char → List Char
  | '.' :: 'a' :: 'l' :: 's' :: rest => replaceAls rest
  | c :: rest => c :: replaceAls rest
  | [] => []

def stripAls (s : String) : String :=
  ⟨replaceAls s.data⟩

/-- Lines 33-48: complete the extension, fail with `FileNotFoundError` when
the file is absent, fail (`Exception("Nothing to do here")`, the spec's
`FormatError`) when the first two bytes are not `1f 8b`, and only then
gunzip, decode and parse.  A magic-matching non-gzip blob would fail inside
`gzip.open` (`badGzip`), and a gzip container whose payload is not XML text
would fail in `ET.fromstring` (`parseError`). -/
def extract_xml_from_ableton_project (fs : FS) (als_file : String) : Except PyExc Elem :=
  match fs (add_als_extension_if_it_is_not_set als_file) with
  | none => .error .fileNotFound
  | some c =>
    if firstTwoBytes c = [31, 139] then
      match c with
      | .gz (.xml e) => .ok e
      | .gz _ => .error .parseError
      | _ => .error .badGzip
    else .error .formatError

/-- Python `shutil.move src dst` once the source content `old` is known to exist:
the destination now holds `old` (an existing destination file is silently
replaced, POSIX `os.rename` semantics) and the source is gone. -/
def moveStep (fs : FS) (src dst : String) (old : Content) : FS :=
  fun q => if q = dst then some old else if q = src then none else fs q

/-- Writing a file, `open(path, "wb")` plus the write: the path now holds `c`. -/
def writeStep (fs : FS) (path : String) (c : Content) : FS :=
  fun q => if q = path then some c else fs q

/-- Lines 129-132: read the bytes at `srcPath` and write their gzip
compression to `dstPath` (when the source is unreadable nothing changes;
that branch is unreachable in `replace_ableton_project`, which has just
written `srcPath`). -/
def gzipStep (fs : FS) (srcPath dstPath : String) : FS :=
  match fs srcPath with
  | some cc => writeStep fs dstPath (Content.gz cc)
  | none => fs

/-- Deletion, `os.remove path`. -/
def removeFileStep (fs : FS) (path : String) : FS :=
  fun q => if q = path then none else fs q

/-- Lines 112-134.  In order: `shutil.move` the project file to
`als_xml + "_old.als"` where `als_xml` is the project path with every
`".als"` occurrence removed (line 120); fail with `FileNotFoundError` when
the project file is missing; write the serialized tree to the intermediate
path `als_xml`; gzip the bytes of `als_xml` into the project path; delete
`als_xml`. -/
def replace_ableton_project (fs : FS) (als_file : String) (tree : Elem) : Except PyExc FS :=
  match fs (add_als_extension_if_it_is_not_set als_file) with
  | none => .error .fileNotFound
  | some old =>
    .ok (removeFileStep
      (gzipStep
        (writeStep
          (moveStep fs (add_als_extension_if_it_is_not_set als_file)
            (stripAls (add_als_extension_if_it_is_not_set als_file) ++ "_old.als") old)
          (stripAls (add_als_extension_if_it_is_not_set als_file)) (Content.xml tree))
        (stripAls (add_als_extension_if_it_is_not_set als_file))
        (add_als_extension_if_it_is_not_set als_file))
      (stripAls (add_als_extension_if_it_is_not_set als_file)))

/-! ## Observers and spec-side definitions used by the claim statements -/

/-- The entry list of the produced locator collection, read off a document
the way the spec describes it: the `LiveSet` child, its `LocatorCollection`
(`"Locators"`) child, the nested collection inside it, and that node's
children. -/
def locatorEntries (d : Elem) : Option (List Elem) :=
  (findTag d.children "LiveSet").bind fun ls =>
    (findTag ls.children "Locators").bind fun outer =>
      (findTag outer.children "Locators").map fun inner => inner.children

/-- How many direct `LiveSet` children are tagged `"Locators"`. -/
def liveSetLocatorCount (d : Elem) : Nat :=
  match findTag d.children "LiveSet" with
  | none => 0
  | some ls => ((ls.children.filter (fun e => e.tag == "Locators")).length : Nat)

/-- The document a splice run leaves behind (on error, the state at the
moment the exception propagates). -/
def spliceDoc : SpliceOut → Elem
  | .ok d => d
  | .err _ d => d

def spliceIsOk : SpliceOut → Bool
  | .ok _ => true
  | .err _ _ => false

/-- Modelled from the claim C2's words: one record per rehearsal node — for
each measure (document order), each of its direction nodes (order within the
measure), and each rehearsal node inside that direction's direction-type
child, the record `{bar: number attribute, marker: rehearsal text}`. -/
def specPerRehearsalRecords (root : Elem) : List Marker :=
  match findTag root.children "part" with
  | none => []
  | some part =>
    ((findallTag part.children "measure").map fun m =>
      ((findallTag m.children "direction").map fun d =>
        match findTag d.children "direction-type" with
        | none => []
        | some dt =>
          (findallTag dt.children "rehearsal").map fun r =>
            ({ bar := getAttr m "number", marker := r.text } : Marker)).flatten).flatten

/-- The record one `direction` node contributes, stated declaratively: the
first `rehearsal` of its `direction-type` child, if any. -/
def dirRecord (bar : Option String) (d : Elem) : Option Marker :=
  ((findTag d.children "direction-type").bind fun dt =>
    findTag dt.children "rehearsal").map fun r => { bar := bar, marker := r.text }

/-- All records one measure contributes, stated declaratively. -/
def perDirectionRecords (m : Elem) : List Marker :=
  (findallTag m.children "direction").filterMap (dirRecord (getAttr m "number"))

/-- The locator rows the splicing loop produces when every bar converts:
ids count up from `i`. -/
def okRows (i : Nat) : List Marker → List Elem
  | [] => []
  | m :: ms => locRow i ((pyInt m.bar).getD 0) (pyFormat m.marker) :: okRows (i + 1) ms

/-- A one-measure notation document whose single rehearsal node carries the
given text, under a measure with the given optional `number` attribute. -/
def mkRehearsalTree (bar : Option String) (txt : Option String) : Elem :=
  Elem.mk "score-partwise" [] none
    [Elem.mk "part" [] none
      [Elem.mk "measure" (match bar with | some b => [("number", b)] | none => []) none
        [Elem.mk "direction" [] none
          [Elem.mk "direction-type" [] none
            [Elem.mk "rehearsal" [] txt []]]]]]

/-- Concrete C2 counterexample input: one measure, one direction, whose
direction-type holds two rehearsal nodes. -/
def cexGpTree : Elem :=
  Elem.mk "score-partwise" [] none
    [Elem.mk "part" [] none
      [Elem.mk "measure" [("number", "1")] none
        [Elem.mk "direction" [] none
          [Elem.mk "direction-type" [] none
            [Elem.mk "rehearsal" [] (some "A") [],
             Elem.mk "rehearsal" [] (some "B") []]]]]]

/-- Concrete C3 counterexample input: the LiveSet already holds a childless
(falsy) `Locators` node in front of the anchor. -/
def cexStaleDoc : Elem :=
  Elem.mk "Ableton" [] none
    [Elem.mk "LiveSet" [] none
      [Elem.mk "Locators" [] none [],
       Elem.mk "ViewStateSessionMixerHeight" [] none []]]

/-- A minimal clean Ableton document used to instantiate hypotheses in the
witnesses: `LiveSet` has the anchor child and one other sibling. -/
def cleanDoc : Elem :=
  Elem.mk "Ableton" [] none
    [Elem.mk "LiveSet" [] none
      [Elem.mk "ViewStateSessionMixerHeight" [] none [],
       Elem.mk "SomeOtherNode" [] none []]]

/-- What the final filesystem of a save run holds at a path (`none` when the
run failed). -/
def replaceOut (fs : FS) (p : String) (t : Elem) (q : String) : Option Content :=
  match replace_ableton_project fs p t with
  | .ok fs2 => fs2 q
  | .error _ => none

def replaceOk (fs : FS) (p : String) (t : Elem) : Bool :=
  match replace_ableton_project fs p t with
  | .ok _ => true
  | .error _ => false

/-- Concrete C5 counterexample filesystem: the project path contains `.als`
twice, and a file already sits at the name the claim designates as backup. -/
def cexFs1 : FS := fun q =>
  if q = "x.als.als" then some (Content.blob [1])
  else if q = "x.als_old.als" then some (Content.blob [2])
  else none

/-- Concrete C5 counterexample filesystem: the backup destination
`p_old.als` already exists. -/
def cexFs2 : FS := fun q =>
  if q = "p.als" then some (Content.blob [7])
  else if q = "p_old.als" then some (Content.blob [9])
  else none

/-! ## Helper lemmas about the child-list primitives -/

theorem findTag_none_of (l : List Elem) (t : String) (h : ∀ e ∈ l, e.tag ≠ t) :
    findTag l t = none := by
  induction l with
  | nil => rfl
  | cons e r ih =>
    simp only [findTag]
    rw [if_neg (h e (List.mem_cons_self e r))]
    exact ih fun x hx => h x (List.mem_cons_of_mem e hx)

theorem findTag_tag {l : List Elem} {t : String} {e : Elem} (h : findTag l t = some e) :
    e.tag = t := by
  induction l with
  | nil => exact absurd h (by simp [findTag])
  | cons a r ih =>
    by_cases ha : a.tag = t
    · simp only [findTag, if_pos ha, Option.some.injEq] at h
      exact h ▸ ha
    · simp only [findTag, if_neg ha] at h
      exact ih h

theorem findIdxTag_none_of (l : List Elem) (t : String) (h : ∀ e ∈ l, e.tag ≠ t) :
    findIdxTag l t = none := by
  induction l with
  | nil => rfl
  | cons e r ih =>
    simp only [findIdxTag]
    rw [if_neg (h e (List.mem_cons_self e r)), ih fun x hx => h x (List.mem_cons_of_mem e hx)]
    rfl

theorem findIdxTag_lt_length {l : List Elem} {t : String} {i : Nat}
    (h : findIdxTag l t = some i) : i < l.length := by
  induction l generalizing i with
  | nil => exact absurd h (by simp [findIdxTag])
  | cons a r ih =>
    by_cases ha : a.tag = t
    · simp only [findIdxTag, if_pos ha, Option.some.injEq] at h
      simp only [List.length_cons]
      omega
    · simp only [findIdxTag, if_neg ha] at h
      cases hr : findIdxTag r t with
      | none => rw [hr] at h; simp at h
      | some j =>
        rw [hr] at h
        simp at h
        have := ih hr
        simp only [List.length_cons]
        omega

theorem findIdxTag_getElem {l : List Elem} {t : String} {i : Nat}
    (h : findIdxTag l t = some i) : ∃ a, l[i]? = some a ∧ a.tag = t := by
  induction l generalizing i with
  | nil => exact absurd h (by simp [findIdxTag])
  | cons a r ih =>
    by_cases ha : a.tag = t
    · simp only [findIdxTag, if_pos ha, Option.some.injEq] at h
      refine ⟨a, ?_, ha⟩
      rw [← h]
      simp
    · simp only [findIdxTag, if_neg ha] at h
      cases hr : findIdxTag r t with
      | none => rw [hr] at h; simp at h
      | some j =>
        rw [hr] at h
        simp at h
        obtain ⟨b, hb, hbt⟩ := ih hr
        refine ⟨b, ?_, hbt⟩
        rw [← h]
        simpa using hb

theorem findTag_append_first {l1 : List Elem} {t : String} (x : Elem) (r : List Elem)
    (h1 : ∀ e ∈ l1, e.tag ≠ t) (hx : x.tag = t) :
    findTag (l1 ++ x :: r) t = some x := by
  induction l1 with
  | nil => simp [findTag, if_pos hx]
  | cons e l ih =>
    simp only [List.cons_append, findTag]
    rw [if_neg (h1 e (List.mem_cons_self e l))]
    exact ih fun y hy => h1 y (List.mem_cons_of_mem e hy)

theorem findIdxTag_append_first {l1 : List Elem} {t : String} (x : Elem) (r : List Elem)
    (h1 : ∀ e ∈ l1, e.tag ≠ t) (hx : x.tag = t) :
    findIdxTag (l1 ++ x :: r) t = some l1.length := by
  induction l1 with
  | nil => simp [findIdxTag, if_pos hx]
  | cons e l ih =>
    simp only [List.cons_append, findIdxTag]
    rw [if_neg (h1 e (List.mem_cons_self e l)), List.append_eq,
      ih fun y hy => h1 y (List.mem_cons_of_mem e hy)]
    rfl

theorem removeFirstTag_append_first {l1 : List Elem} {t : String} (x : Elem) (r : List Elem)
    (h1 : ∀ e ∈ l1, e.tag ≠ t) (hx : x.tag = t) :
    removeFirstTag (l1 ++ x :: r) t = l1 ++ r := by
  induction l1 with
  | nil => simp [removeFirstTag, if_pos hx]
  | cons e l ih =>
    simp only [List.cons_append, removeFirstTag]
    rw [if_neg (h1 e (List.mem_cons_self e l)), List.append_eq,
      ih fun y hy => h1 y (List.mem_cons_of_mem e hy)]

theorem modifyAt_append (l1 : List Elem) (x : Elem) (r : List Elem) (f : Elem → Elem) :
    modifyAt (l1 ++ x :: r) l1.length f = l1 ++ f x :: r := by
  induction l1 with
  | nil => rfl
  | cons e l ih =>
    simp only [List.cons_append, List.length_cons, modifyAt, List.append_eq, ih]

theorem mem_removeFirstTag {e : Elem} {l : List Elem} {t : String}
    (h : e ∈ removeFirstTag l t) : e ∈ l := by
  induction l with
  | nil => exact absurd h (by simp [removeFirstTag])
  | cons a r ih =>
    by_cases ha : a.tag = t
    · simp only [removeFirstTag, if_pos ha] at h
      exact List.mem_cons_of_mem a h
    · simp only [removeFirstTag, if_neg ha, List.mem_cons] at h
      rcases h with h | h
      · exact h ▸ List.mem_cons_self a r
      · exact List.mem_cons_of_mem a (ih h)

theorem pyInsert_eq (n : Nat) (x : Elem) (l : List Elem) :
    pyInsert n x l = l.take n ++ x :: l.drop n := by
  induction l generalizing n with
  | nil => cases n <;> rfl
  | cons e r ih =>
    cases n with
    | zero => rfl
    | succ m => simp only [pyInsert, List.take_succ_cons, List.drop_succ_cons, List.cons_append, ih]

theorem findTag_setFirstTag {l : List Elem} {t : String} {y : Elem} (x : Elem)
    (h : findTag l t = some y) (hx : x.tag = t) :
    findTag (setFirstTag l t x) t = some x := by
  induction l with
  | nil => exact absurd h (by simp [findTag])
  | cons a r ih =>
    by_cases ha : a.tag = t
    · simp [setFirstTag, if_pos ha, findTag, if_pos hx]
    · simp only [findTag, if_neg ha] at h
      simp only [setFirstTag, if_neg ha, findTag, if_neg ha]
      exact ih h

theorem findTag_eq_head_findall (l : List Elem) (t : String) :
    findTag l t = (findallTag l t).head? := by
  induction l with
  | nil => rfl
  | cons a r ih =>
    by_cases ha : a.tag = t
    · simp [findTag, findallTag, if_pos ha]
    · simpa [findTag, findallTag, if_neg ha] using ih

theorem withChildren_tag (e : Elem) (cs : List Elem) : (withChildren e cs).tag = e.tag := rfl

theorem withChildren_children (e : Elem) (cs : List Elem) : (withChildren e cs).children = cs := rfl

/-! ## Characterization of the splice pipeline -/

theorem mem_removalStep {e : Elem} {ls : Elem} (h : e ∈ removalStep ls) : e ∈ ls.children := by
  unfold removalStep at h
  by_cases ht : truthyFind ls "Locators"
  · rw [if_pos ht] at h
    exact mem_removeFirstTag h
  · rwa [if_neg ht] at h

theorem removalStep_clean {ls : Elem} (h : ∀ e ∈ ls.children, e.tag ≠ "Locators") :
    removalStep ls = ls.children := by
  unfold removalStep truthyFind
  rw [findTag_none_of ls.children "Locators" h]
  simp

/-- When `LiveSet`'s children are `l1 ++ x :: l2` with `x` the first
`Locators` child and `x` non-childless (truthy), the removal step deletes
exactly `x`. -/
theorem removalStep_found {ls : Elem} {l1 l2 : List Elem} {x : Elem}
    (hch : ls.children = l1 ++ x :: l2) (h1 : ∀ e ∈ l1, e.tag ≠ "Locators")
    (hx : x.tag = "Locators") (hnx : x.children ≠ []) :
    removalStep ls = l1 ++ l2 := by
  unfold removalStep truthyFind
  rw [hch, findTag_append_first x l2 h1 hx, removeFirstTag_append_first x l2 h1 hx]
  have hcond : (match some x with
      | none => false
      | some y => !y.children.isEmpty) = true := by
    show (!x.children.isEmpty) = true
    cases hcx : x.children with
    | nil => exact absurd hcx hnx
    | cons a r => rfl
  rw [hcond]
  simp

theorem okRows_length (i : Nat) (ms : List Marker) : (okRows i ms).length = ms.length := by
  induction ms generalizing i with
  | nil => rfl
  | cons m r ih => simp only [okRows, List.length_cons, ih]

theorem okRows_getElem {ms : List Marker} {k : Nat} {m : Marker} (i : Nat)
    (h : ms[k]? = some m) :
    (okRows i ms)[k]? = some (locRow (i + k) ((pyInt m.bar).getD 0) (pyFormat m.marker)) := by
  induction ms generalizing i k with
  | nil => simp at h
  | cons a r ih =>
    cases k with
    | zero =>
      simp only [List.getElem?_cons_zero, Option.some.injEq] at h
      subst h
      simp [okRows]
    | succ j =>
      simp only [List.getElem?_cons_succ] at h
      have := ih (i + 1) h
      simpa [okRows, Nat.add_assoc, Nat.add_comm 1 j] using this

theorem addLocators_ok {ms : List Marker} (h : ∀ m ∈ ms, (pyInt m.bar).isSome) :
    ∀ acc i, addLocators acc i ms = (acc ++ okRows i ms, true) := by
  induction ms with
  | nil => intro acc i; simp [addLocators, okRows]
  | cons m r ih =>
    intro acc i
    have hm := h m (List.mem_cons_self m r)
    cases hb : pyInt m.bar with
    | none => rw [hb] at hm; simp at hm
    | some b =>
      simp only [addLocators, hb]
      rw [ih (fun x hx => h x (List.mem_cons_of_mem m hx)) (acc ++ [locRow i b (pyFormat m.marker)]) (i + 1)]
      simp [okRows, hb]

/-- The full run of `add_markers_to_ableton_project` on a document whose
(post-removal) `LiveSet` children contain no `Locators` element and have the
anchor first at index `i`: the fresh collection lands right after the anchor
and is filled by the locator loop; whether the run succeeds is exactly
whether every bar converted. -/
theorem splice_run (doc ls : Elem) (ms : List Marker) (i : Nat) (rows : List Elem) (done : Bool)
    (hms : ms ≠ [])
    (hls : findTag doc.children "LiveSet" = some ls)
    (hnoloc : ∀ e ∈ removalStep ls, e.tag ≠ "Locators")
    (hanchor : findIdxTag (removalStep ls) "ViewStateSessionMixerHeight" = some i)
    (hrows : addLocators [] 1 ms = (rows, done)) :
    add_markers_to_ableton_project doc ms =
      (if done
       then SpliceOut.ok (replaceLiveSet doc (withChildren ls
         ((removalStep ls).take (i + 1) ++
           Elem.mk "Locators" [] none [Elem.mk "Locators" [] none rows] ::
             (removalStep ls).drop (i + 1))))
       else SpliceOut.err PyExc.valueError (replaceLiveSet doc (withChildren ls
         ((removalStep ls).take (i + 1) ++
           Elem.mk "Locators" [] none [Elem.mk "Locators" [] none rows] ::
             (removalStep ls).drop (i + 1))))) := by
  have hempty : ms.isEmpty = false := by
    cases ms with
    | nil => exact absurd rfl hms
    | cons a b => rfl
  have htake : ∀ e ∈ (removalStep ls).take (i + 1), e.tag ≠ "Locators" :=
    fun e he => hnoloc e (List.take_subset (i + 1) (removalStep ls) he)
  have hfind :
      findIdxTag ((removalStep ls).take (i + 1) ++
        Elem.mk "Locators" [] none [] :: (removalStep ls).drop (i + 1)) "Locators" =
      some ((removalStep ls).take (i + 1)).length :=
    findIdxTag_append_first _ _ htake rfl
  have step1 : add_markers_to_ableton_project doc ms = spliceAtAnchor doc ls (removalStep ls) ms := by
    unfold add_markers_to_ableton_project
    rw [hempty]
    simp only [Bool.false_eq_true, if_false, hls]
  have step2 : spliceAtAnchor doc ls (removalStep ls) ms =
      spliceFill doc ls (pyInsert (i + 1) (Elem.mk "Locators" [] none []) (removalStep ls)) ms := by
    unfold spliceAtAnchor
    rw [hanchor]
  rw [pyInsert_eq] at step2
  have step3 : spliceFill doc ls
      ((removalStep ls).take (i + 1) ++
        Elem.mk "Locators" [] none [] :: (removalStep ls).drop (i + 1)) ms =
      (if done
       then SpliceOut.ok (replaceLiveSet doc (withChildren ls
         (modifyAt ((removalStep ls).take (i + 1) ++
             Elem.mk "Locators" [] none [] :: (removalStep ls).drop (i + 1))
           ((removalStep ls).take (i + 1)).length
           (fun e => withChildren e (e.children ++ [Elem.mk "Locators" [] none rows])))))
       else SpliceOut.err PyExc.valueError (replaceLiveSet doc (withChildren ls
         (modifyAt ((removalStep ls).take (i + 1) ++
             Elem.mk "Locators" [] none [] :: (removalStep ls).drop (i + 1))
           ((removalStep ls).take (i + 1)).length
           (fun e => withChildren e (e.children ++ [Elem.mk "Locators" [] none rows])))))) := by
    unfold spliceFill
    rw [hfind, hrows]
  rw [modifyAt_append] at step3
  exact step1.trans (step2.trans step3)

/-- Success form of `splice_run`: when every bar converts, the run succeeds
and the inserted collection holds `okRows 1 ms`. -/
theorem splice_ok (doc ls : Elem) (ms : List Marker) (i : Nat)
    (hms : ms ≠ [])
    (hls : findTag doc.children "LiveSet" = some ls)
    (hnoloc : ∀ e ∈ removalStep ls, e.tag ≠ "Locators")
    (hanchor : findIdxTag (removalStep ls) "ViewStateSessionMixerHeight" = some i)
    (hbars : ∀ m ∈ ms, (pyInt m.bar).isSome) :
    add_markers_to_ableton_project doc ms =
      SpliceOut.ok (replaceLiveSet doc (withChildren ls
        ((removalStep ls).take (i + 1) ++
          Elem.mk "Locators" [] none [Elem.mk "Locators" [] none (okRows 1 ms)] ::
            (removalStep ls).drop (i + 1)))) := by
  have hrows := addLocators_ok hbars [] 1
  rw [List.nil_append] at hrows
  have h := splice_run doc ls ms i (okRows 1 ms) true hms hls hnoloc hanchor hrows
  simpa using h

/-- Reading the locator entries back out of the document `splice_run`
produces. -/
theorem locatorEntries_spliced (doc ls : Elem) (rows : List Elem) (i : Nat)
    (hls : findTag doc.children "LiveSet" = some ls)
    (hnoloc : ∀ e ∈ removalStep ls, e.tag ≠ "Locators") :
    locatorEntries (replaceLiveSet doc (withChildren ls
      ((removalStep ls).take (i + 1) ++
        Elem.mk "Locators" [] none [Elem.mk "Locators" [] none rows] ::
          (removalStep ls).drop (i + 1)))) = some rows := by
  have htake : ∀ e ∈ (removalStep ls).take (i + 1), e.tag ≠ "Locators" :=
    fun e he => hnoloc e (List.take_subset (i + 1) (removalStep ls) he)
  have htag : (withChildren ls
      ((removalStep ls).take (i + 1) ++
        Elem.mk "Locators" [] none [Elem.mk "Locators" [] none rows] ::
          (removalStep ls).drop (i + 1))).tag = "LiveSet" := by
    rw [withChildren_tag]
    exact findTag_tag hls
  unfold locatorEntries replaceLiveSet
  rw [withChildren_children, findTag_setFirstTag _ hls htag, Option.some_bind,
    withChildren_children,
    findTag_append_first (Elem.mk "Locators" [] none [Elem.mk "Locators" [] none rows])
      ((removalStep ls).drop (i + 1)) htake rfl,
    Option.some_bind]
  rfl

/-! ## Characterization of the extraction loop -/

theorem collectDirs_ok (bar : Option String) {ds : List Elem}
    (h : ∀ d ∈ ds, (findTag d.children "direction-type").isSome) :
    collectDirs bar ds = .ok (ds.filterMap (dirRecord bar)) := by
  induction ds with
  | nil => rfl
  | cons d rest ih =>
    have hd := h d (List.mem_cons_self d rest)
    obtain ⟨dt, hdt⟩ := Option.isSome_iff_exists.mp hd
    have ihr := ih fun x hx => h x (List.mem_cons_of_mem d hx)
    cases hr : findallTag dt.children "rehearsal" with
    | nil =>
      simp only [collectDirs, hdt, ihr, hr, List.filterMap_cons, dirRecord,
        Option.some_bind, findTag_eq_head_findall, List.head?, Option.map_none']
    | cons r rrest =>
      simp only [collectDirs, hdt, ihr, hr, List.filterMap_cons, dirRecord,
        Option.some_bind, findTag_eq_head_findall, List.head?, Option.map_some']

theorem measuresLoop_ok {l : List Elem}
    (h : ∀ m ∈ l, ∀ d ∈ findallTag m.children "direction",
      (findTag d.children "direction-type").isSome) :
    measuresLoop l = .ok ((l.map perDirectionRecords).flatten) := by
  induction l with
  | nil => rfl
  | cons m rest ih =>
    simp only [measuresLoop,
      collectDirs_ok (getAttr m "number") (h m (List.mem_cons_self m rest)),
      ih fun x hx => h x (List.mem_cons_of_mem m hx),
      List.map_cons, List.flatten_cons, perDirectionRecords]

/-- Success characterization of the extractor: under the proviso that every
`direction` of a considered measure has a `direction-type` child, extraction
returns, measure by measure (in document order, restricted to measures whose
first `direction` child is truthy) and direction by direction, the first
rehearsal of each direction's `direction-type`. -/
theorem extract_ok (root part : Elem)
    (hpart : findTag root.children "part" = some part)
    (h : ∀ m ∈ qualifyingMeasures part, ∀ d ∈ findallTag m.children "direction",
      (findTag d.children "direction-type").isSome) :
    extract_marker_from_gp_xml root =
      .ok (((qualifyingMeasures part).map perDirectionRecords).flatten) := by
  unfold extract_marker_from_gp_xml
  rw [hpart]
  exact measuresLoop_ok h

/-- Extraction on the canonical one-rehearsal document: the record carries
the raw `number` attribute and the raw rehearsal text, whatever they are. -/
theorem extract_mkRehearsalTree (bar txt : Option String) :
    extract_marker_from_gp_xml (mkRehearsalTree bar txt) =
      .ok [{ bar := bar, marker := txt }] := by
  cases bar <;> rfl

/-! ## Claim theorems -/

/-- C1: for every non-empty marker sequence passed to the splicer, the
produced LocatorCollection holds exactly one Locator per input record, in
input order, with contiguous `Id`s starting at 1, `Time = (bar - 1) * 4`,
`Name` the record's label, and `LomId="0"`, `Annotation=""`,
`IsSongStart="false"`. -/
theorem c1_locator_collection (doc ls : Elem) (ms : List Marker) (i : Nat)
    (hms : ms ≠ [])
    (hls : findTag doc.children "LiveSet" = some ls)
    (hnoloc : ∀ e ∈ removalStep ls, e.tag ≠ "Locators")
    (hanchor : findIdxTag (removalStep ls) "ViewStateSessionMixerHeight" = some i)
    (hbars : ∀ m ∈ ms, (pyInt m.bar).isSome)
    (hlbls : ∀ m ∈ ms, m.marker.isSome) :
    ∃ d L, add_markers_to_ableton_project doc ms = SpliceOut.ok d
      ∧ locatorEntries d = some L
      ∧ L.length = ms.length
      ∧ ∀ k, k < ms.length → ∃ m b lbl,
          ms[k]? = some m
          ∧ pyInt m.bar = some b
          ∧ m.marker = some lbl
          ∧ L[k]? = some (Elem.mk "Locator" [("Id", toString (k + 1))] none
              [Elem.mk "LomId" [("Value", "0")] none [],
               Elem.mk "Time" [("Value", toString ((b - 1) * 4))] none [],
               Elem.mk "Name" [("Value", lbl)] none [],
               Elem.mk "Annotation" [("Value", "")] none [],
               Elem.mk "IsSongStart" [("Value", "false")] none []]) := by
  refine ⟨_, okRows 1 ms, splice_ok doc ls ms i hms hls hnoloc hanchor hbars,
    locatorEntries_spliced doc ls (okRows 1 ms) i hls hnoloc, okRows_length 1 ms, ?_⟩
  intro k hk
  have hm : ms[k]? = some ms[k] := List.getElem?_eq_getElem hk
  have hmem : ms[k] ∈ ms := List.getElem_mem hk
  obtain ⟨b, hb⟩ := Option.isSome_iff_exists.mp (hbars _ hmem)
  obtain ⟨lbl, hlbl⟩ := Option.isSome_iff_exists.mp (hlbls _ hmem)
  refine ⟨ms[k], b, lbl, hm, hb, hlbl, ?_⟩
  rw [okRows_getElem 1 hm]
  simp [locRow, hb, hlbl, pyFormat, Nat.add_comm 1 k]

theorem c1_locator_collection_witness :
    ∃ d L, add_markers_to_ableton_project cleanDoc
        [{ bar := some "1", marker := some "Intro" }, { bar := some "5", marker := some "Chorus" }] =
        SpliceOut.ok d
      ∧ locatorEntries d = some L
      ∧ L.length = 2
      ∧ ∀ k, k < 2 → ∃ m b lbl,
          ([{ bar := some "1", marker := some "Intro" },
            { bar := some "5", marker := some "Chorus" }] : List Marker)[k]? = some m
          ∧ pyInt m.bar = some b
          ∧ m.marker = some lbl
          ∧ L[k]? = some (Elem.mk "Locator" [("Id", toString (k + 1))] none
              [Elem.mk "LomId" [("Value", "0")] none [],
               Elem.mk "Time" [("Value", toString ((b - 1) * 4))] none [],
               Elem.mk "Name" [("Value", lbl)] none [],
               Elem.mk "Annotation" [("Value", "")] none [],
               Elem.mk "IsSongStart" [("Value", "false")] none []]) :=
  c1_locator_collection cleanDoc
    (Elem.mk "LiveSet" [] none
      [Elem.mk "ViewStateSessionMixerHeight" [] none [],
       Elem.mk "SomeOtherNode" [] none []])
    [{ bar := some "1", marker := some "Intro" }, { bar := some "5", marker := some "Chorus" }] 0
    (by decide) rfl (by decide) rfl (by decide) (by decide)

/-- C4: the splicer on an empty marker sequence fails with the
empty-input error and leaves the document exactly as it was (the error
carries the unmodified input document). -/
theorem c4_empty_markers (doc : Elem) :
    add_markers_to_ableton_project doc [] = SpliceOut.err PyExc.emptyInput doc := rfl

/-- C7: on success the new LocatorCollection is inserted as a direct child of
LiveSet immediately after the `ViewStateSessionMixerHeight` child, and every
other sibling keeps its relative order (filtering the `Locators` node back
out recovers the sibling list the insertion started from). -/
theorem c7_insertion_after_anchor (doc ls : Elem) (ms : List Marker) (i : Nat)
    (hms : ms ≠ [])
    (hls : findTag doc.children "LiveSet" = some ls)
    (hnoloc : ∀ e ∈ removalStep ls, e.tag ≠ "Locators")
    (hanchor : findIdxTag (removalStep ls) "ViewStateSessionMixerHeight" = some i)
    (hbars : ∀ m ∈ ms, (pyInt m.bar).isSome) :
    ∃ d ls2 loc a, add_markers_to_ableton_project doc ms = SpliceOut.ok d
      ∧ findTag d.children "LiveSet" = some ls2
      ∧ loc.tag = "Locators"
      ∧ (removalStep ls)[i]? = some a
      ∧ a.tag = "ViewStateSessionMixerHeight"
      ∧ ls2.children = (removalStep ls).take (i + 1) ++ loc :: (removalStep ls).drop (i + 1)
      ∧ ls2.children.filter (fun e => !(e.tag == "Locators")) = removalStep ls := by
  obtain ⟨a, ha, hat⟩ := findIdxTag_getElem hanchor
  have htake : ∀ e ∈ (removalStep ls).take (i + 1), e.tag ≠ "Locators" :=
    fun e he => hnoloc e (List.take_subset (i + 1) (removalStep ls) he)
  have hdrop : ∀ e ∈ (removalStep ls).drop (i + 1), e.tag ≠ "Locators" :=
    fun e he => hnoloc e (List.drop_subset (i + 1) (removalStep ls) he)
  have htag : (withChildren ls
      ((removalStep ls).take (i + 1) ++
        Elem.mk "Locators" [] none [Elem.mk "Locators" [] none (okRows 1 ms)] ::
          (removalStep ls).drop (i + 1))).tag = "LiveSet" := by
    rw [withChildren_tag]
    exact findTag_tag hls
  refine ⟨_, withChildren ls
      ((removalStep ls).take (i + 1) ++
        Elem.mk "Locators" [] none [Elem.mk "Locators" [] none (okRows 1 ms)] ::
          (removalStep ls).drop (i + 1)),
    Elem.mk "Locators" [] none [Elem.mk "Locators" [] none (okRows 1 ms)], a,
    splice_ok doc ls ms i hms hls hnoloc hanchor hbars, ?_, rfl, ha, hat,
    withChildren_children _ _, ?_⟩
  · unfold replaceLiveSet
    rw [withChildren_children]
    exact findTag_setFirstTag _ hls htag
  · rw [withChildren_children, List.filter_append, List.filter_cons]
    have hloc : ((Elem.mk "Locators" [] none
        [Elem.mk "Locators" [] none (okRows 1 ms)]).tag == "Locators") = true := by
      rw [Elem.tag]
      exact beq_self_eq_true "Locators"
    rw [hloc]
    simp only [Bool.not_true, Bool.false_eq_true, if_false]
    rw [List.filter_eq_self.mpr fun e he => by simpa using htake e he,
      List.filter_eq_self.mpr fun e he => by simpa using hdrop e he,
      List.take_append_drop]

theorem c7_insertion_after_anchor_witness :
    ∃ d ls2 loc a, add_markers_to_ableton_project cleanDoc
        [{ bar := some "2", marker := some "Verse" }] = SpliceOut.ok d
      ∧ findTag d.children "LiveSet" = some ls2
      ∧ loc.tag = "Locators"
      ∧ (removalStep (Elem.mk "LiveSet" [] none
          [Elem.mk "ViewStateSessionMixerHeight" [] none [],
           Elem.mk "SomeOtherNode" [] none []]))[0]? = some a
      ∧ a.tag = "ViewStateSessionMixerHeight"
      ∧ ls2.children = (removalStep (Elem.mk "LiveSet" [] none
          [Elem.mk "ViewStateSessionMixerHeight" [] none [],
           Elem.mk "SomeOtherNode" [] none []])).take 1 ++
          loc :: (removalStep (Elem.mk "LiveSet" [] none
            [Elem.mk "ViewStateSessionMixerHeight" [] none [],
             Elem.mk "SomeOtherNode" [] none []])).drop 1
      ∧ ls2.children.filter (fun e => !(e.tag == "Locators")) =
          removalStep (Elem.mk "LiveSet" [] none
            [Elem.mk "ViewStateSessionMixerHeight" [] none [],
             Elem.mk "SomeOtherNode" [] none []]) :=
  c7_insertion_after_anchor cleanDoc
    (Elem.mk "LiveSet" [] none
      [Elem.mk "ViewStateSessionMixerHeight" [] none [],
       Elem.mk "SomeOtherNode" [] none []])
    [{ bar := some "2", marker := some "Verse" }] 0
    (by decide) rfl (by decide) rfl (by decide)

/-- C8: with a non-empty marker list, a document whose root has no `LiveSet`
child aborts with the `AttributeError` kind, a document whose `LiveSet` has
no `ViewStateSessionMixerHeight` child aborts with the `IndexError` kind,
and the two kinds are distinguishable. -/
theorem c8_structure_errors (docA docB lsB : Elem) (msA msB : List Marker)
    (hA : msA ≠ []) (hB : msB ≠ [])
    (h1 : findTag docA.children "LiveSet" = none)
    (h2 : findTag docB.children "LiveSet" = some lsB)
    (h3 : ∀ e ∈ lsB.children, e.tag ≠ "ViewStateSessionMixerHeight") :
    add_markers_to_ableton_project docA msA = SpliceOut.err PyExc.attributeError docA
    ∧ (∃ d, add_markers_to_ableton_project docB msB = SpliceOut.err PyExc.indexError d)
    ∧ PyExc.attributeError ≠ PyExc.indexError := by
  have hemptyA : msA.isEmpty = false := by
    cases msA with
    | nil => exact absurd rfl hA
    | cons a b => rfl
  have hemptyB : msB.isEmpty = false := by
    cases msB with
    | nil => exact absurd rfl hB
    | cons a b => rfl
  refine ⟨?_, ⟨replaceLiveSet docB (withChildren lsB (removalStep lsB)), ?_⟩, by decide⟩
  · unfold add_markers_to_ableton_project
    rw [hemptyA]
    simp only [Bool.false_eq_true, if_false, h1]
  · have hanchor : findIdxTag (removalStep lsB) "ViewStateSessionMixerHeight" = none :=
      findIdxTag_none_of _ _ fun e he => h3 e (mem_removalStep he)
    unfold add_markers_to_ableton_project
    rw [hemptyB]
    simp only [Bool.false_eq_true, if_false, h2]
    unfold spliceAtAnchor
    rw [hanchor]

theorem c8_structure_errors_witness :
    add_markers_to_ableton_project (Elem.mk "Ableton" [] none [])
        [{ bar := some "1", marker := some "A" }] =
      SpliceOut.err PyExc.attributeError (Elem.mk "Ableton" [] none [])
    ∧ (∃ d, add_markers_to_ableton_project
        (Elem.mk "Ableton" [] none [Elem.mk "LiveSet" [] none [Elem.mk "Tracks" [] none []]])
        [{ bar := some "1", marker := some "A" }] = SpliceOut.err PyExc.indexError d)
    ∧ PyExc.attributeError ≠ PyExc.indexError :=
  c8_structure_errors (Elem.mk "Ableton" [] none [])
    (Elem.mk "Ableton" [] none [Elem.mk "LiveSet" [] none [Elem.mk "Tracks" [] none []]])
    (Elem.mk "LiveSet" [] none [Elem.mk "Tracks" [] none []])
    [{ bar := some "1", marker := some "A" }] [{ bar := some "1", marker := some "A" }]
    (by decide) (by decide) rfl rfl (by decide)

/-- C9: a qualifying rehearsal node with no text content extracts to a record
whose marker field is `none`, and splicing that record writes the locator's
`Name` attribute as the literal string `"None"`, not the empty string. -/
theorem c9_none_text (bs : Option String) (b : Int) (doc ls : Elem) (i : Nat)
    (hb : pyInt bs = some b)
    (hls : findTag doc.children "LiveSet" = some ls)
    (hnoloc : ∀ e ∈ removalStep ls, e.tag ≠ "Locators")
    (hanchor : findIdxTag (removalStep ls) "ViewStateSessionMixerHeight" = some i) :
    extract_marker_from_gp_xml (mkRehearsalTree bs none) =
      .ok [{ bar := bs, marker := none }]
    ∧ (∃ d, add_markers_to_ableton_project doc [{ bar := bs, marker := none }] = SpliceOut.ok d
        ∧ locatorEntries d = some [Elem.mk "Locator" [("Id", "1")] none
            [Elem.mk "LomId" [("Value", "0")] none [],
             Elem.mk "Time" [("Value", toString ((b - 1) * 4))] none [],
             Elem.mk "Name" [("Value", "None")] none [],
             Elem.mk "Annotation" [("Value", "")] none [],
             Elem.mk "IsSongStart" [("Value", "false")] none []]])
    ∧ "None" ≠ "" := by
  have hbars : ∀ m ∈ [({ bar := bs, marker := none } : Marker)], (pyInt m.bar).isSome := by
    intro m hm
    rw [List.mem_singleton] at hm
    subst hm
    rw [Marker.bar, hb]
    rfl
  have hrows : okRows 1 [{ bar := bs, marker := none }] = [locRow 1 b "None"] := by
    simp [okRows, hb, pyFormat]
  refine ⟨extract_mkRehearsalTree bs none,
    ⟨_, splice_ok doc ls [{ bar := bs, marker := none }] i (by simp) hls hnoloc hanchor hbars, ?_⟩,
    by decide⟩
  rw [locatorEntries_spliced doc ls (okRows 1 [{ bar := bs, marker := none }]) i hls hnoloc, hrows]
  rfl

theorem c9_none_text_witness :
    extract_marker_from_gp_xml (mkRehearsalTree (some "3") none) =
      .ok [{ bar := some "3", marker := none }]
    ∧ (∃ d, add_markers_to_ableton_project cleanDoc [{ bar := some "3", marker := none }] =
          SpliceOut.ok d
        ∧ locatorEntries d = some [Elem.mk "Locator" [("Id", "1")] none
            [Elem.mk "LomId" [("Value", "0")] none [],
             Elem.mk "Time" [("Value", toString (((3 : Int) - 1) * 4))] none [],
             Elem.mk "Name" [("Value", "None")] none [],
             Elem.mk "Annotation" [("Value", "")] none [],
             Elem.mk "IsSongStart" [("Value", "false")] none []]])
    ∧ "None" ≠ "" :=
  c9_none_text (some "3") 3 cleanDoc
    (Elem.mk "LiveSet" [] none
      [Elem.mk "ViewStateSessionMixerHeight" [] none [],
       Elem.mk "SomeOtherNode" [] none []])
    0 (by decide) rfl (by decide) rfl

/-- C10: extraction never validates the `number` attribute — the record's bar
field is the raw attribute value (even missing or non-numeric), and the
conversion happens only in the splicer, which is where a bad bar fails
(`valueError`), never at extraction time. -/
theorem c10_raw_bar_late_failure (bs lbl : Option String) (doc ls : Elem) (i : Nat)
    (hbad : pyInt bs = none)
    (hls : findTag doc.children "LiveSet" = some ls)
    (hnoloc : ∀ e ∈ removalStep ls, e.tag ≠ "Locators")
    (hanchor : findIdxTag (removalStep ls) "ViewStateSessionMixerHeight" = some i) :
    extract_marker_from_gp_xml (mkRehearsalTree bs (some "Mark")) =
      .ok [{ bar := bs, marker := some "Mark" }]
    ∧ (∃ d, add_markers_to_ableton_project doc [{ bar := bs, marker := lbl }] =
        SpliceOut.err PyExc.valueError d) := by
  refine ⟨extract_mkRehearsalTree bs (some "Mark"), ?_⟩
  have hrows : addLocators [] 1 [{ bar := bs, marker := lbl }] =
      ([Elem.mk "Locator" [("Id", toString 1)] none
        [Elem.mk "LomId" [("Value", "0")] none []]], false) := by
    simp [addLocators, hbad]
  have h := splice_run doc ls [{ bar := bs, marker := lbl }] i _ false
    (by simp) hls hnoloc hanchor hrows
  exact ⟨_, by simpa using h⟩

theorem c10_raw_bar_late_failure_witness :
    extract_marker_from_gp_xml (mkRehearsalTree (some "4a") (some "Mark")) =
      .ok [{ bar := some "4a", marker := some "Mark" }]
    ∧ (∃ d, add_markers_to_ableton_project cleanDoc
        [{ bar := some "4a", marker := some "Coda" }] =
        SpliceOut.err PyExc.valueError d) :=
  c10_raw_bar_late_failure (some "4a") (some "Coda") cleanDoc
    (Elem.mk "LiveSet" [] none
      [Elem.mk "ViewStateSessionMixerHeight" [] none [],
       Elem.mk "SomeOtherNode" [] none []])
    0 (by decide) rfl (by decide) rfl

/-- C3 counterexample: a document whose `LiveSet` already contains a
(childless) `Locators` node.  The claim says any pre-existing
LocatorCollection is removed entirely before insertion, so at most one would
remain; in fact the run succeeds and leaves TWO `Locators` children (the
stale node is falsy in Python's element-truthiness test and survives, and
even receives the new entries). -/
theorem c3_stale_locators_counterexample :
    liveSetLocatorCount cexStaleDoc = 1
    ∧ spliceIsOk (add_markers_to_ableton_project cexStaleDoc
        [{ bar := some "1", marker := some "A" }]) = true
    ∧ liveSetLocatorCount (spliceDoc (add_markers_to_ableton_project cexStaleDoc
        [{ bar := some "1", marker := some "A" }])) = 2 :=
  ⟨rfl, rfl, rfl⟩

/-- C3 amended: the removal step deletes a pre-existing `Locators` child only
when that child is non-empty.  Splicer-produced collections always contain
the nested collection child, so applying the splicer twice in sequence to a
document that starts without any `Locators` child yields a document with
exactly one LocatorCollection, holding only the locators of the second
marker sequence — no residue from the first. -/
theorem c3_amended_reapply (doc ls : Elem) (ms1 ms2 : List Marker) (i : Nat)
    (hms1 : ms1 ≠ []) (hms2 : ms2 ≠ [])
    (hls : findTag doc.children "LiveSet" = some ls)
    (hnoloc : ∀ e ∈ ls.children, e.tag ≠ "Locators")
    (hanchor : findIdxTag ls.children "ViewStateSessionMixerHeight" = some i)
    (hbars1 : ∀ m ∈ ms1, (pyInt m.bar).isSome)
    (hbars2 : ∀ m ∈ ms2, (pyInt m.bar).isSome) :
    ∃ d1 d2 ls2,
      add_markers_to_ableton_project doc ms1 = SpliceOut.ok d1
      ∧ add_markers_to_ableton_project d1 ms2 = SpliceOut.ok d2
      ∧ findTag d2.children "LiveSet" = some ls2
      ∧ ls2.children = ls.children.take (i + 1) ++
          Elem.mk "Locators" [] none [Elem.mk "Locators" [] none (okRows 1 ms2)] ::
            ls.children.drop (i + 1)
      ∧ (ls2.children.filter (fun e => e.tag == "Locators")).length = 1
      ∧ locatorEntries d2 = some (okRows 1 ms2)
      ∧ (okRows 1 ms2).length = ms2.length := by
  have hrs : removalStep ls = ls.children := removalStep_clean hnoloc
  have hnoloc0 : ∀ e ∈ removalStep ls, e.tag ≠ "Locators" := by rw [hrs]; exact hnoloc
  have hanchor0 : findIdxTag (removalStep ls) "ViewStateSessionMixerHeight" = some i := by
    rw [hrs]; exact hanchor
  have htake : ∀ e ∈ ls.children.take (i + 1), e.tag ≠ "Locators" :=
    fun e he => hnoloc e (List.take_subset (i + 1) ls.children he)
  have hdrop : ∀ e ∈ ls.children.drop (i + 1), e.tag ≠ "Locators" :=
    fun e he => hnoloc e (List.drop_subset (i + 1) ls.children he)
  have h1 := splice_ok doc ls ms1 i hms1 hls hnoloc0 hanchor0 hbars1
  rw [hrs] at h1
  -- the LiveSet element after the first run
  have hls1 : findTag (replaceLiveSet doc (withChildren ls
      (ls.children.take (i + 1) ++
        Elem.mk "Locators" [] none [Elem.mk "Locators" [] none (okRows 1 ms1)] ::
          ls.children.drop (i + 1)))).children "LiveSet" =
      some (withChildren ls
        (ls.children.take (i + 1) ++
          Elem.mk "Locators" [] none [Elem.mk "Locators" [] none (okRows 1 ms1)] ::
            ls.children.drop (i + 1))) := by
    unfold replaceLiveSet
    rw [withChildren_children]
    refine findTag_setFirstTag _ hls ?_
    rw [withChildren_tag]
    exact findTag_tag hls
  -- the removal step of the second run deletes exactly the first collection
  have hrs1 : removalStep (withChildren ls
      (ls.children.take (i + 1) ++
        Elem.mk "Locators" [] none [Elem.mk "Locators" [] none (okRows 1 ms1)] ::
          ls.children.drop (i + 1))) = ls.children := by
    rw [removalStep_found (withChildren_children _ _) htake
      (show (Elem.mk "Locators" [] none
        [Elem.mk "Locators" [] none (okRows 1 ms1)]).tag = "Locators" from rfl)
      (List.cons_ne_nil _ _)]
    exact List.take_append_drop (i + 1) ls.children
  have hnoloc1 : ∀ e ∈ removalStep (withChildren ls
      (ls.children.take (i + 1) ++
        Elem.mk "Locators" [] none [Elem.mk "Locators" [] none (okRows 1 ms1)] ::
          ls.children.drop (i + 1))), e.tag ≠ "Locators" := by
    rw [hrs1]; exact hnoloc
  have hanchor1 : findIdxTag (removalStep (withChildren ls
      (ls.children.take (i + 1) ++
        Elem.mk "Locators" [] none [Elem.mk "Locators" [] none (okRows 1 ms1)] ::
          ls.children.drop (i + 1)))) "ViewStateSessionMixerHeight" = some i := by
    rw [hrs1]; exact hanchor
  have h2 := splice_ok _ _ ms2 i hms2 hls1 hnoloc1 hanchor1 hbars2
  rw [hrs1] at h2
  have hent := locatorEntries_spliced _ _ (okRows 1 ms2) i hls1 hnoloc1
  rw [hrs1] at hent
  have hls2 : findTag (replaceLiveSet
      (replaceLiveSet doc (withChildren ls
        (ls.children.take (i + 1) ++
          Elem.mk "Locators" [] none [Elem.mk "Locators" [] none (okRows 1 ms1)] ::
            ls.children.drop (i + 1))))
      (withChildren (withChildren ls
        (ls.children.take (i + 1) ++
          Elem.mk "Locators" [] none [Elem.mk "Locators" [] none (okRows 1 ms1)] ::
            ls.children.drop (i + 1)))
        (ls.children.take (i + 1) ++
          Elem.mk "Locators" [] none [Elem.mk "Locators" [] none (okRows 1 ms2)] ::
            ls.children.drop (i + 1)))).children "LiveSet" =
      some (withChildren (withChildren ls
        (ls.children.take (i + 1) ++
          Elem.mk "Locators" [] none [Elem.mk "Locators" [] none (okRows 1 ms1)] ::
            ls.children.drop (i + 1)))
        (ls.children.take (i + 1) ++
          Elem.mk "Locators" [] none [Elem.mk "Locators" [] none (okRows 1 ms2)] ::
            ls.children.drop (i + 1))) := by
    unfold replaceLiveSet
    rw [withChildren_children]
    refine findTag_setFirstTag _ hls1 ?_
    rw [withChildren_tag, withChildren_tag]
    exact findTag_tag hls
  refine ⟨_, _, _, h1, h2, hls2, withChildren_children _ _, ?_, hent, okRows_length 1 ms2⟩
  rw [withChildren_children, List.filter_append, List.filter_cons]
  have hp1 : (ls.children.take (i + 1)).filter (fun e => e.tag == "Locators") = [] := by
    rw [List.filter_eq_nil_iff]
    intro a ha
    simpa using htake a ha
  have hp2 : (ls.children.drop (i + 1)).filter (fun e => e.tag == "Locators") = [] := by
    rw [List.filter_eq_nil_iff]
    intro a ha
    simpa using hdrop a ha
  rw [hp1, hp2]
  simp [Elem.tag]

theorem c3_amended_reapply_witness :
    ∃ d1 d2 ls2,
      add_markers_to_ableton_project cleanDoc [{ bar := some "1", marker := some "A" }] =
        SpliceOut.ok d1
      ∧ add_markers_to_ableton_project d1
          [{ bar := some "2", marker := some "B" }, { bar := some "3", marker := some "C" }] =
        SpliceOut.ok d2
      ∧ findTag d2.children "LiveSet" = some ls2
      ∧ ls2.children = (Elem.mk "LiveSet" [] none
          [Elem.mk "ViewStateSessionMixerHeight" [] none [],
           Elem.mk "SomeOtherNode" [] none []]).children.take 1 ++
          Elem.mk "Locators" [] none [Elem.mk "Locators" [] none (okRows 1
            [{ bar := some "2", marker := some "B" }, { bar := some "3", marker := some "C" }])] ::
            (Elem.mk "LiveSet" [] none
              [Elem.mk "ViewStateSessionMixerHeight" [] none [],
               Elem.mk "SomeOtherNode" [] none []]).children.drop 1
      ∧ (ls2.children.filter (fun e => e.tag == "Locators")).length = 1
      ∧ locatorEntries d2 = some (okRows 1
          [{ bar := some "2", marker := some "B" }, { bar := some "3", marker := some "C" }])
      ∧ (okRows 1 [{ bar := some "2", marker := some "B" },
          { bar := some "3", marker := some "C" }]).length = 2 :=
  c3_amended_reapply cleanDoc
    (Elem.mk "LiveSet" [] none
      [Elem.mk "ViewStateSessionMixerHeight" [] none [],
       Elem.mk "SomeOtherNode" [] none []])
    [{ bar := some "1", marker := some "A" }]
    [{ bar := some "2", marker := some "B" }, { bar := some "3", marker := some "C" }] 0
    (by decide) (by decide) rfl (by decide) rfl (by decide) (by decide)

/-- C2 counterexample: a single measure whose one direction has a
direction-type containing TWO rehearsal nodes.  The claim (one record per
qualifying rehearsal node) predicts the two records computed by
`specPerRehearsalRecords`; the code produces only one record (the first
rehearsal of the direction). -/
theorem c2_per_rehearsal_counterexample :
    extract_marker_from_gp_xml cexGpTree = .ok [{ bar := some "1", marker := some "A" }]
    ∧ specPerRehearsalRecords cexGpTree =
        [{ bar := some "1", marker := some "A" }, { bar := some "1", marker := some "B" }]
    ∧ ([{ bar := some "1", marker := some "A" }] : List Marker).length = 1
    ∧ (specPerRehearsalRecords cexGpTree).length = 2 :=
  ⟨rfl, rfl, rfl, rfl⟩

/-- C2 amended: one record per qualifying direction node, not per rehearsal
node.  Only measures whose first `direction` child has at least one child
element are considered; for each of their direction nodes whose
direction-type child contains at least one rehearsal, exactly one record is
produced — bar from the measure's `number` attribute, marker from the FIRST
rehearsal of that direction-type — in direction order within the measure and
measure order across the document (provided every direction of a considered
measure has a direction-type child). -/
theorem c2_amended_per_direction (root part : Elem)
    (hpart : findTag root.children "part" = some part)
    (hdt : ∀ m ∈ qualifyingMeasures part, ∀ d ∈ findallTag m.children "direction",
      (findTag d.children "direction-type").isSome) :
    extract_marker_from_gp_xml root =
      .ok (((qualifyingMeasures part).map perDirectionRecords).flatten) := by
  unfold extract_marker_from_gp_xml
  rw [hpart]
  exact measuresLoop_ok hdt

theorem c2_amended_per_direction_witness :
    extract_marker_from_gp_xml (Elem.mk "score-partwise" [] none
      [Elem.mk "part" [] none
        [Elem.mk "measure" [("number", "1")] none
          [Elem.mk "direction" [] none
            [Elem.mk "direction-type" [] none
              [Elem.mk "rehearsal" [] (some "A") [],
               Elem.mk "rehearsal" [] (some "B") []]]],
         Elem.mk "measure" [("number", "2")] none [],
         Elem.mk "measure" [("number", "4")] none
          [Elem.mk "direction" [] none
            [Elem.mk "direction-type" [] none [Elem.mk "rehearsal" [] (some "C") []]],
           Elem.mk "direction" [] none
            [Elem.mk "direction-type" [] none [Elem.mk "rehearsal" [] (some "D") []]]]]]) =
      .ok (((qualifyingMeasures (Elem.mk "part" [] none
        [Elem.mk "measure" [("number", "1")] none
          [Elem.mk "direction" [] none
            [Elem.mk "direction-type" [] none
              [Elem.mk "rehearsal" [] (some "A") [],
               Elem.mk "rehearsal" [] (some "B") []]]],
         Elem.mk "measure" [("number", "2")] none [],
         Elem.mk "measure" [("number", "4")] none
          [Elem.mk "direction" [] none
            [Elem.mk "direction-type" [] none [Elem.mk "rehearsal" [] (some "C") []]],
           Elem.mk "direction" [] none
            [Elem.mk "direction-type" [] none [Elem.mk "rehearsal" [] (some "D") []]]]])).map
        perDirectionRecords).flatten) :=
  c2_amended_per_direction
    (Elem.mk "score-partwise" [] none
      [Elem.mk "part" [] none
        [Elem.mk "measure" [("number", "1")] none
          [Elem.mk "direction" [] none
            [Elem.mk "direction-type" [] none
              [Elem.mk "rehearsal" [] (some "A") [],
               Elem.mk "rehearsal" [] (some "B") []]]],
         Elem.mk "measure" [("number", "2")] none [],
         Elem.mk "measure" [("number", "4")] none
          [Elem.mk "direction" [] none
            [Elem.mk "direction-type" [] none [Elem.mk "rehearsal" [] (some "C") []]],
           Elem.mk "direction" [] none
            [Elem.mk "direction-type" [] none [Elem.mk "rehearsal" [] (some "D") []]]]]])
    (Elem.mk "part" [] none
      [Elem.mk "measure" [("number", "1")] none
        [Elem.mk "direction" [] none
          [Elem.mk "direction-type" [] none
            [Elem.mk "rehearsal" [] (some "A") [],
             Elem.mk "rehearsal" [] (some "B") []]]],
       Elem.mk "measure" [("number", "2")] none [],
       Elem.mk "measure" [("number", "4")] none
        [Elem.mk "direction" [] none
          [Elem.mk "direction-type" [] none [Elem.mk "rehearsal" [] (some "C") []]],
         Elem.mk "direction" [] none
          [Elem.mk "direction-type" [] none [Elem.mk "rehearsal" [] (some "D") []]]]])
    rfl (by decide)

/-- C6: loading fails with the not-found kind when the extension-completed
path names no file, fails with the format-error kind when the file's first
two bytes are not the gzip magic `1f 8b`, and in the latter case there is no
fallback: even a perfectly good uncompressed XML document is rejected, never
returned. -/
theorem c6_load_errors (fs gs : FS) (p q : String) (c : Content)
    (h1 : fs (add_als_extension_if_it_is_not_set p) = none)
    (h2 : gs (add_als_extension_if_it_is_not_set q) = some c)
    (h3 : firstTwoBytes c ≠ [31, 139]) :
    extract_xml_from_ableton_project fs p = .error .fileNotFound
    ∧ extract_xml_from_ableton_project gs q = .error .formatError
    ∧ ∀ e, extract_xml_from_ableton_project gs q ≠ .ok e := by
  have hA : extract_xml_from_ableton_project fs p = .error .fileNotFound := by
    unfold extract_xml_from_ableton_project
    rw [h1]
  have hB : extract_xml_from_ableton_project gs q = .error .formatError := by
    unfold extract_xml_from_ableton_project
    rw [h2]
    simp only [if_neg h3]
  refine ⟨hA, hB, fun e he => ?_⟩
  rw [hB] at he
  exact Except.noConfusion he

theorem c6_load_errors_witness :
    extract_xml_from_ableton_project (fun _ => none) "missing" = .error .fileNotFound
    ∧ extract_xml_from_ableton_project
        (fun q => if q = "plain.als" then some (Content.xml cleanDoc) else none)
        "plain" = .error .formatError :=
  ⟨(c6_load_errors (fun _ => none)
      (fun q => if q = "plain.als" then some (Content.xml cleanDoc) else none)
      "missing" "plain" (Content.xml cleanDoc) rfl rfl (by decide)).1,
   (c6_load_errors (fun _ => none)
      (fun q => if q = "plain.als" then some (Content.xml cleanDoc) else none)
      "missing" "plain" (Content.xml cleanDoc) rfl rfl (by decide)).2.1⟩

/-! ## Pointwise lemmas for the filesystem steps -/

theorem writeStep_self (f : FS) (path : String) (c : Content) :
    writeStep f path c path = some c := if_pos rfl

theorem writeStep_ne (f : FS) (path : String) (c : Content) (q : String) (hq : q ≠ path) :
    writeStep f path c q = f q := if_neg hq

theorem moveStep_dst (f : FS) (src dst : String) (old : Content) :
    moveStep f src dst old dst = some old := if_pos rfl

theorem removeFileStep_self (f : FS) (path : String) : removeFileStep f path path = none :=
  if_pos rfl

theorem removeFileStep_ne (f : FS) (path q : String) (hq : q ≠ path) :
    removeFileStep f path q = f q := if_neg hq

theorem gzipStep_write (f : FS) (x dstP : String) (c : Content) :
    gzipStep (writeStep f x c) x dstP = writeStep (writeStep f x c) dstP (Content.gz c) := by
  unfold gzipStep
  rw [writeStep_self]

/-- C5 counterexample.  First run: project path `"x.als.als"`; the claim's
backup name (`"_old"` inserted before the extension) is `"x.als_old.als"`,
but after the successful run that path still carries its unrelated prior
content while the backup actually landed at `"x_old.als"` (the code strips
EVERY `".als"` occurrence).  Second run: the backup destination
`"p_old.als"` already exists; the claim says the move fails with IOError,
but the run succeeds and silently overwrites the destination with the old
project bytes. -/
theorem c5_backup_counterexample :
    replaceOk cexFs1 "x.als.als" cleanDoc = true
    ∧ replaceOut cexFs1 "x.als.als" cleanDoc "x.als_old.als" = some (Content.blob [2])
    ∧ replaceOut cexFs1 "x.als.als" cleanDoc "x_old.als" = some (Content.blob [1])
    ∧ replaceOk cexFs2 "p.als" cleanDoc = true
    ∧ replaceOut cexFs2 "p.als" cleanDoc "p_old.als" = some (Content.blob [7]) :=
  ⟨rfl, rfl, rfl, rfl, rfl⟩

/-- C5 amended: the backup path is the extension-completed project path with
every `".als"` occurrence removed and `"_old.als"` appended (equal to
inserting `"_old"` before the extension exactly when `".als"` occurs once);
the move precedes every destructive write, so the final state's backup file
holds the original bytes; the move fails (`IOError` kind, here
`FileNotFoundError`) only when the source project file is missing, and it
silently overwrites an existing backup destination (no error is raised for
an existing destination — the success conclusion needs no hypothesis about
the backup path being free). -/
theorem c5_amended_backup (fs gs : FS) (p q : String) (tree t2 : Elem) (old : Content)
    (h : fs (add_als_extension_if_it_is_not_set p) = some old)
    (hxp : stripAls (add_als_extension_if_it_is_not_set p) ≠
      add_als_extension_if_it_is_not_set p)
    (hxb : stripAls (add_als_extension_if_it_is_not_set p) ≠
      stripAls (add_als_extension_if_it_is_not_set p) ++ "_old.als")
    (hpb : add_als_extension_if_it_is_not_set p ≠
      stripAls (add_als_extension_if_it_is_not_set p) ++ "_old.als")
    (h2 : gs (add_als_extension_if_it_is_not_set q) = none) :
    (∃ fs2, replace_ableton_project fs p tree = .ok fs2
      ∧ fs2 (stripAls (add_als_extension_if_it_is_not_set p) ++ "_old.als") = some old
      ∧ fs2 (add_als_extension_if_it_is_not_set p) = some (Content.gz (Content.xml tree))
      ∧ fs2 (stripAls (add_als_extension_if_it_is_not_set p)) = none)
    ∧ replace_ableton_project gs q t2 = .error .fileNotFound := by
  have hrun : replace_ableton_project fs p tree = .ok (removeFileStep
      (gzipStep
        (writeStep
          (moveStep fs (add_als_extension_if_it_is_not_set p)
            (stripAls (add_als_extension_if_it_is_not_set p) ++ "_old.als") old)
          (stripAls (add_als_extension_if_it_is_not_set p)) (Content.xml tree))
        (stripAls (add_als_extension_if_it_is_not_set p))
        (add_als_extension_if_it_is_not_set p))
      (stripAls (add_als_extension_if_it_is_not_set p))) := by
    unfold replace_ableton_project
    rw [h]
  rw [gzipStep_write] at hrun
  refine ⟨⟨_, hrun, ?_, ?_, ?_⟩, ?_⟩
  · rw [removeFileStep_ne _ _ _ (Ne.symm hxb),
      writeStep_ne _ _ _ _ (Ne.symm hpb),
      writeStep_ne _ _ _ _ (Ne.symm hxb),
      moveStep_dst]
  · rw [removeFileStep_ne _ _ _ (Ne.symm hxp), writeStep_self]
  · rw [removeFileStep_self]
  · unfold replace_ableton_project
    rw [h2]

theorem c5_amended_backup_witness :
    (∃ fs2, replace_ableton_project
        (fun r => if r = "song.als" then some (Content.blob [1, 2]) else none)
        "song" cleanDoc = .ok fs2
      ∧ fs2 (stripAls (add_als_extension_if_it_is_not_set "song") ++ "_old.als") =
          some (Content.blob [1, 2])
      ∧ fs2 (add_als_extension_if_it_is_not_set "song") =
          some (Content.gz (Content.xml cleanDoc))
      ∧ fs2 (stripAls (add_als_extension_if_it_is_not_set "song")) = none)
    ∧ replace_ableton_project (fun _ => none) "gone" cleanDoc = .error .fileNotFound :=
  c5_amended_backup
    (fun r => if r = "song.als" then some (Content.blob [1, 2]) else none)
    (fun _ => none) "song" "gone" cleanDoc cleanDoc (Content.blob [1, 2])
    rfl (by decide) (by decide) (by decide) rfl

end GP

example : GP.findTag [GP.Elem.mk "a" [] none []] "a" = some (GP.Elem.mk "a" [] none []) := rfl
example : ("x.als.als" : String).data = ['x', '.', 'a', 'l', 's', '.', 'a', 'l', 's'] := rfl
example : ([[1, 2], [3]] : List (List Nat)).flatten = [1, 2, 3] := rfl
example : (toString (-4 : Int)) = "-4" := rfl
